import Mathlib

set_option maxHeartbeats 1000000

/-! Shallow embedding of `src/lib/extension/deviceAvailability.js`
(class `DeviceAvailabilityHandler`).

The handler's mutable fields (`timers`, `pending`, the serial command
queue and its stopped flag, and the `availability_timeout` read from the
settings at construction) are collected in `HandlerState`.  External
collaborators (the zigbee device registry and the settings module) are
collected in `Env`.  Methods become pure state transformers; outward
effects (halting the queue, MQTT publishes) are reported as a list of
`Action`s.  Asynchrony (timer callbacks, queue-drain callbacks) is
modelled by the labelled step function `step` on `HandlerState`, with
`Reachable` describing the states a handler can be in. -/

namespace DeviceAvailability

/-- A zigbee device as read from the registry.  Only the attributes the
source consumes appear: `ieeeAddr`, `type`, `powerSource` (absent models
a JS `undefined`/`null`), `manufId` and `modelId`. -/
structure Device where
  ieeeAddr : String
  type : String
  powerSource : Option String
  manufId : Option Nat
  modelId : Option String
deriving DecidableEq, Repr

/-- JS truthiness of an optional string attribute: `undefined`, `null`
and the empty string are falsy. -/
def truthy : Option String → Bool
  | none => false
  | some str => str != ""

/-- `isPingable` from the source:
`(device.type === 'Router' && device.powerSource && device.powerSource !== 'Battery') || (device.manufId === 4448 && device.modelId === 'E11-G13')`. -/
def isPingable (device : Device) : Bool :=
  (device.type == "Router" && truthy device.powerSource &&
      device.powerSource != some "Battery") ||
    (device.manufId == some 4448 && device.modelId == some "E11-G13")

/-- The per-device settings entry returned by `settings.getDevice`. -/
structure DeviceSettings where
  friendly_name : String
deriving DecidableEq, Repr

/-- External collaborators: `devices` is `zigbee.getDevices()`, and
`getDevice` is `settings.getDevice` (the configured friendly name, when
an entry exists). -/
structure Env where
  devices : List Device
  getDevice : String → Option DeviceSettings

/-- Modelled from the spec: `zigbee.getDevice` lives outside `src/`; the
registry contract `resolveNode(address) -> Node | absent` resolves an
address to the known node with that address. -/
def zigbeeGetDevice (env : Env) (ieeeAddr : String) : Option Device :=
  env.devices.find? (fun d => d.ieeeAddr == ieeeAddr)

/-- Modelled from the spec: `zigbee.getAllClients` lives outside `src/`;
the spec's registry treats `getAllProbeEligibleNodes` as filtering all
known nodes by the eligibility predicate, with the coordinator excluded
from the clients. -/
def getAllClients (env : Env) : List Device :=
  env.devices.filter (fun d => d.type != "Coordinator")

/-- Modelled from the spec: `utils.secondsToMilliseconds` lives outside
`src/`; the quiet-period is a configured duration in seconds, converted
to milliseconds for the timer. -/
def secondsToMilliseconds (seconds : Nat) : Nat :=
  seconds * 1000

/-- One message handed to `mqtt.publish(topic, payload, {retain, qos})`. -/
structure PublishMsg where
  topic : String
  payload : String
  retain : Bool
  qos : Nat
deriving DecidableEq, Repr

/-- One call to `publishAvailability`, remembering which address and
availability flag produced the emitted message. -/
structure AvailabilityPublish where
  ieeeAddr : String
  available : Bool
  msg : PublishMsg
deriving DecidableEq, Repr

/-- The handler's mutable fields.  `timers` is the `this.timers` map,
kept as an association list of (address, duration in ms) so that the
"at most one live timer per address" property is an invariant to prove
rather than a consequence of the representation; `pending` is the
`this.pending` array; `queue` holds the submitted probe jobs (each job
is identified by the address it captured) in FIFO order; `queueStopped`
records whether `queue.stop()` has been called. -/
structure HandlerState where
  availability_timeout : Nat
  timers : List (String × Nat)
  pending : List String
  queue : List String
  queueStopped : Bool
deriving DecidableEq, Repr

/-- The constructor: reads `availability_timeout` from the settings once
and starts with no timers, no pending jobs and an empty, autostarted,
concurrency-1 queue. -/
def construct (availability_timeout : Nat) : HandlerState :=
  { availability_timeout := availability_timeout
    timers := []
    pending := []
    queue := []
    queueStopped := false }

/-- `setTimer`: `clearTimeout` any existing timer for the address, then
install a fresh one for `secondsToMilliseconds(this.availability_timeout)`. -/
def setTimer (s : HandlerState) (ieeeAddr : String) : HandlerState :=
  { s with timers :=
      s.timers.filter (fun t => t.1 != ieeeAddr) ++
        [(ieeeAddr, secondsToMilliseconds s.availability_timeout)] }

/-- `handleInterval`: skip when a job for the address is already
pending, otherwise record the address as pending and push a probe job
onto the queue. -/
def handleInterval (s : HandlerState) (ieeeAddr : String) : HandlerState :=
  if ieeeAddr ∈ s.pending then s
  else
    { s with pending := s.pending ++ [ieeeAddr]
             queue := s.queue ++ [ieeeAddr] }

/-- `publishAvailability`: resolve the configured friendly name (falling
back to the raw address when no settings entry exists), build the topic
and payload, and emit one retained qos-0 message.  The `big_lamp` branch
in the source only emits debug logs and performs a read-only registry
lookup; its `state.set` and `device.update` calls are commented out, so
the branch neither mutates handler state nor alters the message. -/
def publishAvailability (env : Env) (s : HandlerState) (ieeeAddr : String)
    (available : Bool) : HandlerState × AvailabilityPublish :=
  let deviceSettings := env.getDevice ieeeAddr
  let name :=
    match deviceSettings with
    | some ds => ds.friendly_name
    | none => ieeeAddr
  let topic := name ++ "/availability"
  let payload := if available then "online" else "offline"
  let s₁ := if name == "big_lamp" then s else s
  (s₁,
    { ieeeAddr := ieeeAddr
      available := available
      msg := { topic := topic, payload := payload, retain := true, qos := 0 } })

/-- `this.pending.indexOf(ieeeAddr)` followed by `splice(index, 1)`:
remove the first occurrence of the address, if any. -/
def removeFirst : List String → String → List String
  | [], _ => []
  | x :: rest, a => if x = a then rest else x :: removeFirst rest a

/-- `getAllPingableDevices`: `zigbee.getAllClients().filter(isPingable)`. -/
def getAllPingableDevices (env : Env) : List Device :=
  (getAllClients env).filter (fun d => isPingable d)

/-- Outward effects of the handler: halting the queue and bus publishes. -/
inductive Action where
  | haltQueue : Action
  | publish : AvailabilityPublish → Action
deriving DecidableEq, Repr

/-- `onMQTTConnected`: publish online for every known non-coordinator
device, then arm a timer for every pingable client.
`publishAvailability` leaves the handler state unchanged, so the
publishes are computed against the incoming state. -/
def onMQTTConnected (env : Env) (s : HandlerState) :
    HandlerState × List Action :=
  let online :=
    (env.devices.filter (fun d => d.type != "Coordinator")).map
      (fun d => Action.publish (publishAvailability env s d.ieeeAddr true).2)
  let s₁ :=
    (getAllPingableDevices env).foldl (fun st d => setTimer st d.ieeeAddr) s
  (s₁, online)

/-- `stop`: halt the queue first, then publish offline for every known
non-coordinator device. -/
def stop (env : Env) (s : HandlerState) : HandlerState × List Action :=
  let s₁ := { s with queueStopped := true }
  let offline :=
    (env.devices.filter (fun d => d.type != "Coordinator")).map
      (fun d => Action.publish (publishAvailability env s₁ d.ieeeAddr false).2)
  (s₁, Action.haltQueue :: offline)

/-- Fault oracle for the collaborator calls made while a probe result is
handled.  The job body in the source wraps nothing in try/catch, so a
throwing collaborator (e.g. `JSON.stringify` on a cyclic settings
object, or the registry reach-in on the `big_lamp` branch) aborts the
rest of the callback. -/
structure ResultFaults where
  publishAvailabilityThrows : Bool
deriving DecidableEq, Repr

/-- The fault-free oracle. -/
def noFaults : ResultFaults :=
  { publishAvailabilityThrows := false }

/-- Observable outcome of running one probe job's result callback. -/
structure JobRun where
  state : HandlerState
  publishes : List AvailabilityPublish
  queueCallbackInvoked : Bool
deriving DecidableEq, Repr

/-- The body of the callback `zigbee.ping` invokes with the probe
result: log, `publishAvailability(ieeeAddr, !error)`, remove the address
from `pending`, `setTimer(ieeeAddr)`, then `queueCallback()`.  A fault
thrown by `publishAvailability` propagates: nothing after it runs. -/
def pingCallbackRun (env : Env) (faults : ResultFaults) (s : HandlerState)
    (ieeeAddr : String) (error : Bool) : JobRun :=
  if faults.publishAvailabilityThrows then
    { state := s, publishes := [], queueCallbackInvoked := false }
  else
    let res := publishAvailability env s ieeeAddr (!error)
    let s₁ := { res.1 with pending := removeFirst res.1.pending ieeeAddr }
    { state := setTimer s₁ ieeeAddr
      publishes := [res.2]
      queueCallbackInvoked := true }

/-- Modelled from the spec: the serial command queue (the `queue`
package, outside `src/`) runs jobs one at a time in FIFO order and runs
nothing once stopped.  Running the head job executes the ping callback
(fault-free) and, via `queueCallback`, retires the job from the queue. -/
def runHeadJob (env : Env) (s : HandlerState) (error : Bool) :
    Option (HandlerState × AvailabilityPublish) :=
  if s.queueStopped then none
  else
    match s.queue with
    | [] => none
    | addr :: rest =>
      let res := publishAvailability env s addr (!error)
      let s₁ := { res.1 with pending := removeFirst res.1.pending addr }
      let s₂ := setTimer s₁ addr
      some ({ s₂ with queue := rest }, res.2)

/-- `onZigbeeMessage(message, device, mappedDevice)`: when a device is
given, resolve it through the registry and rearm its timer when the
resolved device is pingable.  When the registry fails to resolve the
address the source would dereference `undefined` inside `isPingable`,
so the outcome is a fault (`none`). -/
def onZigbeeMessage (env : Env) (s : HandlerState) (device : Option Device) :
    Option (HandlerState × List Action) :=
  match device with
  | none => some (s, [])
  | some d =>
    match zigbeeGetDevice env d.ieeeAddr with
    | none => none
    | some resolved =>
      if isPingable resolved then some (setTimer s d.ieeeAddr, [])
      else some (s, [])

/-- External events the handler reacts to: MQTT connection, a timer
firing for an address (one-shot: the fired timer is no longer live), the
serial queue delivering the head job's probe result, inbound zigbee
traffic, and shutdown. -/
inductive Event where
  | mqttConnected : Event
  | timerFire : String → Event
  | probeResult : Bool → Event
  | zigbeeMessage : Option Device → Event
  | stopRequested : Event
deriving DecidableEq, Repr

/-- Labelled step function: `none` means the event cannot occur in the
given state (no live timer for the address, no runnable head job, or an
unresolvable device). -/
def step (env : Env) (s : HandlerState) : Event → Option (HandlerState × List Action)
  | Event.mqttConnected => some (onMQTTConnected env s)
  | Event.timerFire addr =>
    if addr ∈ s.timers.map Prod.fst then
      some
        (handleInterval
          { s with timers := s.timers.filter (fun t => t.1 != addr) } addr, [])
    else none
  | Event.probeResult error =>
    match runHeadJob env s error with
    | some (s₁, pub) => some (s₁, [Action.publish pub])
    | none => none
  | Event.zigbeeMessage device => onZigbeeMessage env s device
  | Event.stopRequested => some (stop env s)

/-- States a handler can reach from construction under any event
sequence. -/
inductive Reachable (env : Env) : HandlerState → Prop
  | init (availability_timeout : Nat) :
      Reachable env (construct availability_timeout)
  | next {s s₁ : HandlerState} {e : Event} {acts : List Action} :
      Reachable env s → step env s e = some (s₁, acts) → Reachable env s₁

/-- States reachable from a given state under any event sequence. -/
inductive ReachFrom (env : Env) : HandlerState → HandlerState → Prop
  | refl (s : HandlerState) : ReachFrom env s s
  | next {s t u : HandlerState} {e : Event} {acts : List Action} :
      ReachFrom env s t → step env t e = some (u, acts) → ReachFrom env s u

/-- Number of publishes among the actions for a given address and
availability flag. -/
def publishedFor (acts : List Action) (ieeeAddr : String) (available : Bool) : Nat :=
  (acts.filter (fun act =>
    match act with
    | Action.publish p => p.ieeeAddr == ieeeAddr && p.available == available
    | Action.haltQueue => false)).length

/-- The display name `publishAvailability` resolves for an address. -/
def resolveName (env : Env) (ieeeAddr : String) : String :=
  match env.getDevice ieeeAddr with
  | some ds => ds.friendly_name
  | none => ieeeAddr

/-- The message `publishAvailability` emits for an address and flag. -/
def mkAvailabilityPublish (env : Env) (ieeeAddr : String) (available : Bool) :
    AvailabilityPublish :=
  { ieeeAddr := ieeeAddr
    available := available
    msg := { topic := resolveName env ieeeAddr ++ "/availability"
             payload := if available then "online" else "offline"
             retain := true
             qos := 0 } }

/-- Concrete coordinator device used in witnesses. -/
def devA : Device :=
  { ieeeAddr := "0xA", type := "Coordinator", powerSource := some "Mains"
    manufId := none, modelId := none }

/-- Concrete mains-powered router used in witnesses. -/
def devB : Device :=
  { ieeeAddr := "0xB", type := "Router", powerSource := some "Mains"
    manufId := none, modelId := none }

/-- Concrete battery-powered router used in witnesses. -/
def devC : Device :=
  { ieeeAddr := "0xC", type := "Router", powerSource := some "Battery"
    manufId := none, modelId := none }

/-- Environment with no devices and no configured names. -/
def envEmpty : Env :=
  { devices := [], getDevice := fun _ => none }

/-- Environment holding the single router `devB`. -/
def envB : Env :=
  { devices := [devB], getDevice := fun _ => none }

/-- Environment holding `devA`, `devB`, `devC`. -/
def envABC : Env :=
  { devices := [devA, devB, devC], getDevice := fun _ => none }

/-- Environment configuring a friendly name only for address `0xL`. -/
def envNamed : Env :=
  { devices := []
    getDevice := fun a =>
      if a = "0xL" then some { friendly_name := "lamp" } else none }

/-- Environment configuring the friendly name `big_lamp` everywhere. -/
def envBig : Env :=
  { devices := [], getDevice := fun _ => some { friendly_name := "big_lamp" } }

/-- Concrete state with one pending job for `0xB` at the queue head. -/
def qState : HandlerState :=
  { availability_timeout := 5, timers := [], pending := ["0xB"]
    queue := ["0xB"], queueStopped := false }

/-- The pending-set invariant: no address occurs twice. -/
def PendingInv (s : HandlerState) : Prop :=
  s.pending.Nodup

/-- The timer-registry invariant: at most one live timer per address,
each armed for the configured quiet-period. -/
def TimerInv (s : HandlerState) : Prop :=
  (s.timers.map Prod.fst).Nodup ∧
  ∀ p ∈ s.timers, p.2 = secondsToMilliseconds s.availability_timeout

/-- The handler invariant maintained by every step. -/
def Inv (s : HandlerState) : Prop :=
  PendingInv s ∧ TimerInv s

/-- State of `envB` after `onMQTTConnected` ran on `construct 1`. -/
def s₁w : HandlerState :=
  { availability_timeout := 1, timers := [("0xB", 1000)], pending := []
    queue := [], queueStopped := false }

/-- Actions emitted by `onMQTTConnected` on `envB`. -/
def acts₁w : List Action :=
  [Action.publish
    { ieeeAddr := "0xB", available := true
      msg := { topic := "0xB/availability", payload := "online"
               retain := true, qos := 0 } }]

/-- State of `envB` after the timer for `0xB` then fired. -/
def s₂w : HandlerState :=
  { availability_timeout := 1, timers := [], pending := ["0xB"]
    queue := ["0xB"], queueStopped := false }

lemma truthy_iff (o : Option String) :
    truthy o = true ↔ ∃ str, o = some str ∧ str ≠ "" := by
  cases o <;> simp [truthy]

lemma publishAvailability_eq (env : Env) (s : HandlerState) (ieeeAddr : String)
    (available : Bool) :
    publishAvailability env s ieeeAddr available =
      (s, mkAvailabilityPublish env ieeeAddr available) := by
  simp only [publishAvailability, mkAvailabilityPublish, resolveName, ite_self]

lemma removeFirst_sublist (l : List String) (a : String) :
    (removeFirst l a).Sublist l := by
  induction l with
  | nil => simp [removeFirst]
  | cons x rest ih =>
    by_cases h : x = a
    · simp only [removeFirst, if_pos h]
      exact List.sublist_cons_self x rest
    · simp only [removeFirst, if_neg h]
      exact ih.cons₂ x

lemma not_mem_removeFirst (l : List String) (a : String) (h : l.Nodup) :
    a ∉ removeFirst l a := by
  induction l with
  | nil => simp [removeFirst]
  | cons x rest ih =>
    rcases List.nodup_cons.mp h with ⟨hx, hr⟩
    by_cases hxa : x = a
    · subst hxa
      simpa [removeFirst] using hx
    · simp only [removeFirst, if_neg hxa, List.mem_cons, not_or]
      exact ⟨fun he => hxa he.symm, ih hr⟩

lemma runHeadJob_cons (env : Env) (s : HandlerState) (addr : String)
    (rest : List String) (error : Bool) (hq : s.queue = addr :: rest)
    (hstop : s.queueStopped = false) :
    runHeadJob env s error =
      some
        ({ s with
            pending := removeFirst s.pending addr
            queue := rest
            timers := s.timers.filter (fun t => t.1 != addr) ++
              [(addr, secondsToMilliseconds s.availability_timeout)] },
          mkAvailabilityPublish env addr (!error)) := by
  simp only [runHeadJob, hq, hstop, publishAvailability_eq, setTimer,
    Bool.false_eq_true, if_false]

lemma mem_map_fst_setTimer (s : HandlerState) (a x : String) :
    x ∈ (setTimer s a).timers.map Prod.fst ↔
      x ∈ s.timers.map Prod.fst ∨ x = a := by
  simp only [setTimer, List.map_append, List.mem_append, List.map_cons,
    List.map_nil, List.mem_singleton, List.mem_map, List.mem_filter,
    bne_iff_ne, ne_eq]
  constructor
  · rintro (⟨t, ⟨ht, hne⟩, rfl⟩ | rfl)
    · exact Or.inl ⟨t, ht, rfl⟩
    · exact Or.inr rfl
  · rintro (⟨t, ht, rfl⟩ | rfl)
    · by_cases hta : t.1 = a
      · exact Or.inr hta
      · exact Or.inl ⟨t, ⟨ht, hta⟩, rfl⟩
    · exact Or.inr rfl

lemma timer_shape_inv (tm : List (String × Nat)) (ms : Nat) (a : String)
    (h₁ : (tm.map Prod.fst).Nodup) (h₂ : ∀ p ∈ tm, p.2 = ms) :
    (((tm.filter (fun t => t.1 != a) ++ [(a, ms)]).map Prod.fst).Nodup ∧
      ∀ p ∈ tm.filter (fun t => t.1 != a) ++ [(a, ms)], p.2 = ms) := by
  constructor
  · rw [List.map_append, List.nodup_append]
    refine ⟨((List.filter_sublist tm).map Prod.fst).nodup h₁, by simp, ?_⟩
    intro x hx
    rcases List.mem_map.mp hx with ⟨t, ht, rfl⟩
    rcases List.mem_filter.mp ht with ⟨_, hne⟩
    simpa using bne_iff_ne.mp hne
  · intro p hp
    rcases List.mem_append.mp hp with hp | hp
    · exact h₂ p (List.mem_of_mem_filter hp)
    · rcases List.mem_singleton.mp hp with rfl
      rfl

lemma setTimer_inv {s : HandlerState} (h : Inv s) (a : String) :
    Inv (setTimer s a) := by
  refine ⟨h.1, ?_⟩
  have := timer_shape_inv s.timers (secondsToMilliseconds s.availability_timeout)
    a h.2.1 h.2.2
  exact this

lemma foldl_setTimer_inv (l : List Device) :
    ∀ s : HandlerState, Inv s →
      Inv (l.foldl (fun st d => setTimer st d.ieeeAddr) s) := by
  induction l with
  | nil => exact fun s h => h
  | cons x rest ih =>
    intro s h
    exact ih (setTimer s x.ieeeAddr) (setTimer_inv h x.ieeeAddr)

lemma foldl_setTimer_fields (l : List Device) :
    ∀ s : HandlerState,
      (l.foldl (fun st d => setTimer st d.ieeeAddr) s).pending = s.pending ∧
      (l.foldl (fun st d => setTimer st d.ieeeAddr) s).queue = s.queue ∧
      (l.foldl (fun st d => setTimer st d.ieeeAddr) s).queueStopped =
        s.queueStopped ∧
      (l.foldl (fun st d => setTimer st d.ieeeAddr) s).availability_timeout =
        s.availability_timeout := by
  induction l with
  | nil => exact fun s => ⟨rfl, rfl, rfl, rfl⟩
  | cons x rest ih =>
    intro s
    exact ih (setTimer s x.ieeeAddr)

lemma mem_map_fst_foldl (l : List Device) :
    ∀ (s : HandlerState) (x : String),
      x ∈ (l.foldl (fun st d => setTimer st d.ieeeAddr) s).timers.map Prod.fst ↔
        x ∈ s.timers.map Prod.fst ∨ ∃ d ∈ l, d.ieeeAddr = x := by
  induction l with
  | nil => simp
  | cons y rest ih =>
    intro s x
    rw [List.foldl_cons, ih, mem_map_fst_setTimer]
    constructor
    · rintro ((hx | rfl) | ⟨d, hd, rfl⟩)
      · exact Or.inl hx
      · exact Or.inr ⟨y, List.mem_cons_self y rest, rfl⟩
      · exact Or.inr ⟨d, List.mem_cons_of_mem y hd, rfl⟩
    · rintro (hx | ⟨d, hd, rfl⟩)
      · exact Or.inl (Or.inl hx)
      · rcases List.mem_cons.mp hd with rfl | hd
        · exact Or.inl (Or.inr rfl)
        · exact Or.inr ⟨d, hd, rfl⟩

lemma handleInterval_availability_timeout (s : HandlerState) (a : String) :
    (handleInterval s a).availability_timeout = s.availability_timeout := by
  by_cases h : a ∈ s.pending <;> simp [handleInterval, h]

lemma handleInterval_queueStopped (s : HandlerState) (a : String) :
    (handleInterval s a).queueStopped = s.queueStopped := by
  by_cases h : a ∈ s.pending <;> simp [handleInterval, h]

lemma handleInterval_inv {s : HandlerState} (h : Inv s) (a : String) :
    Inv (handleInterval s a) := by
  by_cases hmem : a ∈ s.pending
  · simpa [handleInterval, hmem] using h
  · unfold Inv PendingInv TimerInv at h ⊢
    rw [handleInterval, if_neg hmem]
    refine ⟨?_, h.2⟩
    exact List.nodup_append.mpr
      ⟨h.1, by simp,
        fun x hx hxa => hmem ((List.mem_singleton.mp hxa) ▸ hx)⟩

lemma step_props {env : Env} {s s₁ : HandlerState} {e : Event}
    {acts : List Action} (h : step env s e = some (s₁, acts)) :
    (Inv s → Inv s₁) ∧
    s₁.availability_timeout = s.availability_timeout ∧
    (s.queueStopped = true → s₁.queueStopped = true) := by
  cases e with
  | mqttConnected =>
    simp only [step, onMQTTConnected, Option.some.injEq, Prod.mk.injEq] at h
    rcases h with ⟨h₁, -⟩
    subst h₁
    have hf := foldl_setTimer_fields (getAllPingableDevices env) s
    exact ⟨foldl_setTimer_inv _ s, hf.2.2.2, fun hs => hf.2.2.1 ▸ hs⟩
  | timerFire addr =>
    by_cases hmem : addr ∈ s.timers.map Prod.fst
    · simp only [step, if_pos hmem, Option.some.injEq, Prod.mk.injEq] at h
      rcases h with ⟨h₁, -⟩
      subst h₁
      refine ⟨?_, ?_, ?_⟩
      · intro hs
        refine handleInterval_inv ?_ addr
        exact ⟨hs.1, ((List.filter_sublist s.timers).map Prod.fst).nodup hs.2.1,
          fun p hp => hs.2.2 p (List.mem_of_mem_filter hp)⟩
      · rw [handleInterval_availability_timeout]
      · intro hs
        rw [handleInterval_queueStopped]
        exact hs
    · simp [step, if_neg hmem] at h
  | probeResult error =>
    cases hst : s.queueStopped with
    | true =>
      simp [step, runHeadJob, hst] at h
    | false =>
      cases hq : s.queue with
      | nil => simp [step, runHeadJob, hst, hq] at h
      | cons addr rest =>
        rw [step] at h
        rw [runHeadJob_cons env s addr rest error hq hst] at h
        simp only [Option.some.injEq, Prod.mk.injEq] at h
        rcases h with ⟨h₁, -⟩
        subst h₁
        refine ⟨fun hs => ⟨?_, ?_⟩, rfl, ?_⟩
        · exact ((removeFirst_sublist s.pending addr).nodup) hs.1
        · exact timer_shape_inv s.timers _ addr hs.2.1 hs.2.2
        · intro htrue
          exact absurd htrue (by simp [hst])
  | zigbeeMessage device =>
    cases device with
    | none =>
      simp only [step, onZigbeeMessage, Option.some.injEq, Prod.mk.injEq] at h
      rcases h with ⟨h₁, -⟩
      subst h₁
      exact ⟨fun hs => hs, rfl, fun h => h⟩
    | some d =>
      simp only [step, onZigbeeMessage] at h
      cases hres : zigbeeGetDevice env d.ieeeAddr with
      | none => simp [hres] at h
      | some resolved =>
        cases hp : isPingable resolved with
        | true =>
          simp [hres, hp] at h
          rcases h with ⟨h₁, -⟩
          subst h₁
          exact ⟨fun hs => setTimer_inv hs d.ieeeAddr, rfl, fun h => h⟩
        | false =>
          simp [hres, hp] at h
          rcases h with ⟨h₁, -⟩
          subst h₁
          exact ⟨fun hs => hs, rfl, fun h => h⟩
  | stopRequested =>
    simp only [step, stop, Option.some.injEq, Prod.mk.injEq] at h
    rcases h with ⟨h₁, -⟩
    subst h₁
    exact ⟨fun hs => hs, rfl, fun _ => rfl⟩

lemma reachable_inv {env : Env} {s : HandlerState} (h : Reachable env s) :
    Inv s := by
  induction h with
  | init availability_timeout =>
    exact ⟨List.nodup_nil, List.nodup_nil, by simp [construct]⟩
  | next _ hstep ih => exact (step_props hstep).1 ih

lemma reachFrom_stopped {env : Env} {s₀ s₂ : HandlerState}
    (h : ReachFrom env s₀ s₂) (hst : s₀.queueStopped = true) :
    s₂.queueStopped = true := by
  induction h with
  | refl => exact hst
  | next _ hstep ih => exact (step_props hstep).2.2 ih

lemma step_probeResult_stopped {env : Env} {s : HandlerState}
    (h : s.queueStopped = true) (err : Bool) :
    step env s (Event.probeResult err) = none := by
  simp [step, runHeadJob, h]

lemma countP_addr_eq_one (l : List Device)
    (hnd : (l.map (fun d => d.ieeeAddr)).Nodup) {d : Device} (hd : d ∈ l) :
    l.countP (fun e => e.ieeeAddr == d.ieeeAddr) = 1 := by
  induction l with
  | nil => cases hd
  | cons x rest ih =>
    rw [List.map_cons, List.nodup_cons] at hnd
    rcases List.mem_cons.mp hd with rfl | hdr
    · have h0 : rest.countP (fun e => e.ieeeAddr == d.ieeeAddr) = 0 := by
        rw [List.countP_eq_zero]
        intro e he hbe
        exact hnd.1 (List.mem_map.mpr ⟨e, he, beq_iff_eq.mp hbe⟩)
      simp [List.countP_cons, h0]
    · have hx : (x.ieeeAddr == d.ieeeAddr) = false := by
        rw [beq_eq_false_iff_ne]
        intro hEq
        exact hnd.1 (List.mem_map.mpr ⟨d, hdr, hEq.symm⟩)
      simp [List.countP_cons, hx, ih hnd.2 hdr]

lemma publishedFor_map_flag (env : Env) (s : HandlerState) (l : List Device)
    (a : String) (avail b : Bool) :
    publishedFor
        (l.map (fun d =>
          Action.publish (publishAvailability env s d.ieeeAddr b).2)) a avail =
      if b = avail then l.countP (fun e => e.ieeeAddr == a) else 0 := by
  induction l with
  | nil => simp [publishedFor]
  | cons x rest ih =>
    simp only [publishedFor, List.map_cons, List.filter_cons,
      publishAvailability_eq, mkAvailabilityPublish] at ih ⊢
    by_cases hba : b = avail
    · subst hba
      simp only [beq_self_eq_true, Bool.and_true]
      by_cases hxa : x.ieeeAddr = a
      · simp [hxa, List.countP_cons, ih]
      · simp [List.countP_cons, ih, beq_eq_false_iff_ne.mpr hxa]
    · have hba2 : (b == avail) = false := beq_eq_false_iff_ne.mpr hba
      simp [hba2, hba, ih]

lemma publishedFor_halt_cons (acts : List Action) (a : String) (avail : Bool) :
    publishedFor (Action.haltQueue :: acts) a avail =
      publishedFor acts a avail := by
  simp [publishedFor, List.filter_cons]

/-- C4: `isPingable(device)` returns true iff (the type is `Router` and
the power source is present/truthy and not `Battery`) or (the
manufacturer id is 4448 and the model id is `E11-G13`); an absent power
source yields false even for routers, unless the vendor/model override
matches. -/
theorem c4_isPingable_spec (d : Device) :
    (isPingable d = true ↔
      ((d.type = "Router" ∧ (∃ ps, d.powerSource = some ps ∧ ps ≠ "") ∧
          d.powerSource ≠ some "Battery") ∨
        (d.manufId = some 4448 ∧ d.modelId = some "E11-G13"))) ∧
    (d.powerSource = none →
      ¬(d.manufId = some 4448 ∧ d.modelId = some "E11-G13") →
      isPingable d = false) := by
  constructor
  · simp [isPingable, truthy_iff, Bool.or_eq_true, Bool.and_eq_true,
      beq_iff_eq, bne_iff_ne, and_assoc]
  · intro hps hover
    simp [isPingable, truthy, hps, Bool.or_eq_true, Bool.and_eq_true,
      beq_iff_eq]
    intro h1 h2
    exact hover ⟨h1, h2⟩

/-- C4 witness: a mains router is pingable; a router with an absent
power source and ordinary vendor/model is not. -/
theorem c4_witness :
    isPingable devB = true ∧
    isPingable
      { ieeeAddr := "0xU", type := "Router", powerSource := none
        manufId := none, modelId := none } = false :=
  ⟨(c4_isPingable_spec devB).1.mpr
      (Or.inl ⟨rfl, ⟨"Mains", rfl, by decide⟩, by decide⟩),
    (c4_isPingable_spec _).2 rfl (by simp)⟩

/-- C8: `publishAvailability` emits one retained qos-0 message with
payload `online`/`offline` according to the flag, on topic
`<name>/availability` where the name is the configured friendly name or,
when no settings entry exists, the raw address; a naming miss is never
fatal. -/
theorem c8_publish_format (env : Env) (s : HandlerState) (ieeeAddr : String)
    (available : Bool) :
    ((publishAvailability env s ieeeAddr available).2.msg.payload =
        if available then "online" else "offline") ∧
    (publishAvailability env s ieeeAddr available).2.msg.retain = true ∧
    (publishAvailability env s ieeeAddr available).2.msg.qos = 0 ∧
    (publishAvailability env s ieeeAddr available).2.ieeeAddr = ieeeAddr ∧
    (publishAvailability env s ieeeAddr available).2.available = available ∧
    (∀ ds, env.getDevice ieeeAddr = some ds →
      (publishAvailability env s ieeeAddr available).2.msg.topic =
        ds.friendly_name ++ "/availability") ∧
    (env.getDevice ieeeAddr = none →
      (publishAvailability env s ieeeAddr available).2.msg.topic =
        ieeeAddr ++ "/availability") := by
  refine ⟨rfl, rfl, rfl, rfl, rfl, ?_, ?_⟩
  · intro ds hds
    simp [publishAvailability, hds]
  · intro hds
    simp [publishAvailability, hds]

/-- C8 witness: with a configured friendly name the topic uses it, and
with no settings entry the topic falls back to the raw address. -/
theorem c8_witness :
    (publishAvailability envNamed (construct 1) "0xL" true).2.msg.topic =
      "lamp/availability" ∧
    (publishAvailability envNamed (construct 1) "0xZ" false).2.msg.topic =
      "0xZ/availability" :=
  ⟨(c8_publish_format envNamed (construct 1) "0xL" true).2.2.2.2.2.1
      { friendly_name := "lamp" } (by decide),
    (c8_publish_format envNamed (construct 1) "0xZ" false).2.2.2.2.2.2
      (by decide)⟩

/-- C10: `publishAvailability` mutates no handler state and emits one
message; on the `big_lamp` special case the branch only logs (its state
mutation is commented out) and the emitted topic, payload and options
are the generic ones. -/
theorem c10_publish_frame (env : Env) (s : HandlerState) (ieeeAddr : String)
    (available : Bool) :
    (publishAvailability env s ieeeAddr available).1 = s ∧
    (∀ ds, env.getDevice ieeeAddr = some ds → ds.friendly_name = "big_lamp" →
      (publishAvailability env s ieeeAddr available).2.msg =
        { topic := "big_lamp/availability"
          payload := if available then "online" else "offline"
          retain := true
          qos := 0 }) := by
  constructor
  · simp [publishAvailability]
  · intro ds hds hname
    simp [publishAvailability, hds, hname]

/-- C10 witness: the `big_lamp` case leaves the state untouched and
emits the generic message. -/
theorem c10_witness :
    (publishAvailability envBig (construct 2) "0xD" true).1 = construct 2 ∧
    (publishAvailability envBig (construct 2) "0xD" true).2.msg =
      { topic := "big_lamp/availability", payload := "online"
        retain := true, qos := 0 } :=
  ⟨(c10_publish_frame envBig (construct 2) "0xD" true).1,
    by
      have h := (c10_publish_frame envBig (construct 2) "0xD" true).2
        { friendly_name := "big_lamp" } rfl rfl
      simpa using h⟩

/-- C3 counterexample: a fault thrown by `publishAvailability` while the
ping result is handled (the job body has no try/catch) skips the
completion continuation and orphans the pending-set entry, so the claim
that the continuation runs on every code path, unexpected faults
included, fails. -/
theorem c3_counterexample :
    (pingCallbackRun envEmpty { publishAvailabilityThrows := true }
        qState "0xB" false).queueCallbackInvoked = false ∧
    (pingCallbackRun envEmpty { publishAvailabilityThrows := true }
        qState "0xB" false).state.pending = ["0xB"] :=
  ⟨rfl, rfl⟩

/-- C3 amended: on the probe-success and explicit probe-failure paths
the job invokes `queueCallback`, removes the pending entry and emits
exactly one publish; the source installs no fault handler, so an
unexpected fault raised while handling the result skips the
continuation (see the counterexample). -/
theorem c3_completion_no_fault (env : Env) (s : HandlerState)
    (ieeeAddr : String) (error : Bool) :
    (pingCallbackRun env noFaults s ieeeAddr error).queueCallbackInvoked =
      true ∧
    (pingCallbackRun env noFaults s ieeeAddr error).state.pending =
      removeFirst s.pending ieeeAddr ∧
    (pingCallbackRun env noFaults s ieeeAddr error).publishes.length = 1 := by
  simp [pingCallbackRun, noFaults, publishAvailability_eq, setTimer]

/-- C7: on observed traffic with a resolvable device, the handler
rearms the device's timer exactly when the resolved device is pingable,
emits no publish, and changes neither the pending set nor the queue. -/
theorem c7_traffic (env : Env) (s : HandlerState) (d resolved : Device)
    (hres : zigbeeGetDevice env d.ieeeAddr = some resolved) :
    ∃ s₁, onZigbeeMessage env s (some d) = some (s₁, []) ∧
      (isPingable resolved = true → s₁ = setTimer s d.ieeeAddr) ∧
      (isPingable resolved = false → s₁ = s) ∧
      s₁.pending = s.pending ∧ s₁.queue = s.queue := by
  cases hp : isPingable resolved with
  | true =>
    refine ⟨setTimer s d.ieeeAddr, ?_, fun _ => rfl, ?_, rfl, rfl⟩
    · simp [onZigbeeMessage, hres, hp]
    · intro hfalse
      simp [hp] at hfalse
  | false =>
    refine ⟨s, ?_, ?_, fun _ => rfl, rfl, rfl⟩
    · simp [onZigbeeMessage, hres, hp]
    · intro htrue
      simp [hp] at htrue

/-- C7 witness: traffic from the mains router `devB` in `envB`. -/
theorem c7_witness :
    ∃ s₁, onZigbeeMessage envB (construct 3) (some devB) = some (s₁, []) ∧
      (isPingable devB = true → s₁ = setTimer (construct 3) devB.ieeeAddr) ∧
      (isPingable devB = false → s₁ = construct 3) ∧
      s₁.pending = (construct 3).pending ∧ s₁.queue = (construct 3).queue :=
  c7_traffic envB (construct 3) devB devB (by decide)

/-- C2: when the head job for address `addr` completes with result
`error`, the handler publishes availability `!error` for `addr` (payload
`offline` on failure, `online` on success), removes `addr` from the
pending set, rearms its timer for the full configured quiet-period,
retires the job, and exactly one publish is emitted — uniformly in
`error`. -/
theorem c2_job_completion (env : Env) (s : HandlerState) (addr : String)
    (rest : List String) (error : Bool) (hq : s.queue = addr :: rest)
    (hstop : s.queueStopped = false) :
    ∃ s₁ pub,
      runHeadJob env s error = some (s₁, pub) ∧
      step env s (Event.probeResult error) = some (s₁, [Action.publish pub]) ∧
      pub.ieeeAddr = addr ∧
      pub.available = !error ∧
      pub.msg.payload = (if error = true then "offline" else "online") ∧
      s₁.pending = removeFirst s.pending addr ∧
      (s.pending.Nodup → addr ∉ s₁.pending) ∧
      s₁.queue = rest ∧
      s₁.timers = s.timers.filter (fun t => t.1 != addr) ++
        [(addr, secondsToMilliseconds s.availability_timeout)] := by
  refine ⟨_, _, runHeadJob_cons env s addr rest error hq hstop, ?_, rfl, rfl,
    ?_, rfl, ?_, rfl, rfl⟩
  · simp [step, runHeadJob_cons env s addr rest error hq hstop]
  · cases error <;> rfl
  · intro hnd
    exact not_mem_removeFirst s.pending addr hnd

/-- C2 witness: the queued job for `0xB` in `qState`, failing probe. -/
theorem c2_witness :
    ∃ s₁ pub,
      runHeadJob envEmpty qState true = some (s₁, pub) ∧
      step envEmpty qState (Event.probeResult true) =
        some (s₁, [Action.publish pub]) ∧
      pub.ieeeAddr = "0xB" ∧
      pub.available = !true ∧
      pub.msg.payload = (if (true : Bool) = true then "offline" else "online") ∧
      s₁.pending = removeFirst qState.pending "0xB" ∧
      (qState.pending.Nodup → "0xB" ∉ s₁.pending) ∧
      s₁.queue = [] ∧
      s₁.timers = qState.timers.filter (fun t => t.1 != "0xB") ++
        [("0xB", secondsToMilliseconds qState.availability_timeout)] :=
  c2_job_completion envEmpty qState "0xB" [] true rfl rfl

/-- C1: in every reachable state each address occurs at most once in
the pending set, and `handleInterval` on an address already pending
submits no job and leaves the whole state (pending set and queue
included) unchanged. -/
theorem c1_pending_unique_and_skip (env : Env) (s : HandlerState)
    (h : Reachable env s) :
    (∀ a : String, s.pending.count a ≤ 1) ∧
    (∀ a : String, a ∈ s.pending → handleInterval s a = s) := by
  have hinv := reachable_inv h
  refine ⟨fun a => List.nodup_iff_count_le_one.mp hinv.1 a, ?_⟩
  intro a ha
  simp [handleInterval, ha]

/-- C1 witness: the state of `envB` reached by connecting and letting
the timer for `0xB` fire has `0xB` pending once, and a second
`handleInterval` for `0xB` is a no-op. -/
theorem c1_witness :
    (∀ a : String, s₂w.pending.count a ≤ 1) ∧
    (∀ a : String, a ∈ s₂w.pending → handleInterval s₂w a = s₂w) :=
  c1_pending_unique_and_skip envB s₂w
    (@Reachable.next envB s₁w s₂w (Event.timerFire "0xB") []
      (@Reachable.next envB (construct 1) s₁w Event.mqttConnected acts₁w
        (Reachable.init 1) (by decide))
      (by decide))

/-- C9: in every reachable state each address has at most one live
timer, every live timer is armed for the configured quiet-period,
`setTimer` cancels any existing timer for the address before installing
the new one, and no step changes the quiet-period read at
construction. -/
theorem c9_timers (env : Env) (s : HandlerState) (h : Reachable env s) :
    ((s.timers.map Prod.fst).Nodup ∧
      ∀ p ∈ s.timers, p.2 = secondsToMilliseconds s.availability_timeout) ∧
    (∀ a, (setTimer s a).timers =
      s.timers.filter (fun t => t.1 != a) ++
        [(a, secondsToMilliseconds s.availability_timeout)]) ∧
    (∀ e s₁ acts, step env s e = some (s₁, acts) →
      s₁.availability_timeout = s.availability_timeout) :=
  ⟨(reachable_inv h).2, fun _ => rfl,
    fun _ _ _ hst => (step_props hst).2.1⟩

/-- C9 witness: the freshly constructed handler in `envB`. -/
theorem c9_witness :
    (((construct 4).timers.map Prod.fst).Nodup ∧
      ∀ p ∈ (construct 4).timers,
        p.2 = secondsToMilliseconds (construct 4).availability_timeout) ∧
    (∀ a, (setTimer (construct 4) a).timers =
      (construct 4).timers.filter (fun t => t.1 != a) ++
        [(a, secondsToMilliseconds (construct 4).availability_timeout)]) ∧
    (∀ e s₁ acts, step envB (construct 4) e = some (s₁, acts) →
      s₁.availability_timeout = (construct 4).availability_timeout) :=
  c9_timers envB (construct 4) (Reachable.init 4)

/-- C5: startup publishes exactly one online message for every known
non-coordinator device, none for the coordinator, and arms a timer for
an address exactly when a known device with that address is pingable. -/
theorem c5_startup (env : Env) (t : Nat)
    (hnd : (env.devices.map (fun d => d.ieeeAddr)).Nodup)
    (hco : ∀ d ∈ env.devices, d.type = "Coordinator" → isPingable d = false) :
    (∀ d ∈ env.devices, d.type ≠ "Coordinator" →
      publishedFor (onMQTTConnected env (construct t)).2 d.ieeeAddr true = 1 ∧
      publishedFor (onMQTTConnected env (construct t)).2 d.ieeeAddr false = 0) ∧
    (∀ d ∈ env.devices, d.type = "Coordinator" →
      publishedFor (onMQTTConnected env (construct t)).2 d.ieeeAddr true = 0 ∧
      publishedFor (onMQTTConnected env (construct t)).2 d.ieeeAddr false = 0) ∧
    (∀ a : String,
      a ∈ (onMQTTConnected env (construct t)).1.timers.map Prod.fst ↔
        ∃ d ∈ env.devices, d.ieeeAddr = a ∧ isPingable d = true) := by
  have hacts : (onMQTTConnected env (construct t)).2 =
      (env.devices.filter (fun d => d.type != "Coordinator")).map
        (fun d =>
          Action.publish (publishAvailability env (construct t) d.ieeeAddr true).2) :=
    rfl
  have hs1 : (onMQTTConnected env (construct t)).1 =
      (getAllPingableDevices env).foldl
        (fun st d => setTimer st d.ieeeAddr) (construct t) := rfl
  have hsubL : (env.devices.filter (fun d => d.type != "Coordinator")).Sublist
      env.devices := List.filter_sublist _
  have hndL :
      ((env.devices.filter (fun d => d.type != "Coordinator")).map
        (fun d => d.ieeeAddr)).Nodup :=
    ((hsubL.map (fun d => d.ieeeAddr)).nodup) hnd
  refine ⟨?_, ?_, ?_⟩
  · intro d hd hne
    have hdL : d ∈ env.devices.filter (fun d => d.type != "Coordinator") :=
      List.mem_filter.mpr ⟨hd, bne_iff_ne.mpr hne⟩
    constructor
    · rw [hacts, publishedFor_map_flag, if_pos rfl]
      exact countP_addr_eq_one _ hndL hdL
    · rw [hacts, publishedFor_map_flag]
      simp
  · intro d hd hdc
    constructor
    · rw [hacts, publishedFor_map_flag, if_pos rfl, List.countP_eq_zero]
      intro e heL hbe
      have he := List.mem_filter.mp heL
      have heq : e = d :=
        List.inj_on_of_nodup_map hnd he.1 hd (beq_iff_eq.mp hbe)
      have hent := bne_iff_ne.mp he.2
      rw [heq] at hent
      exact hent hdc
    · rw [hacts, publishedFor_map_flag]
      simp
  · intro a
    rw [hs1, mem_map_fst_foldl]
    simp only [construct, List.map_nil, List.not_mem_nil, false_or,
      getAllPingableDevices, getAllClients, List.mem_filter]
    constructor
    · rintro ⟨d, ⟨⟨hdmem, -⟩, hp⟩, rfl⟩
      exact ⟨d, hdmem, rfl, hp⟩
    · rintro ⟨d, hdmem, rfl, hp⟩
      refine ⟨d, ⟨⟨hdmem, ?_⟩, hp⟩, rfl⟩
      rw [bne_iff_ne]
      intro hdc
      rw [hco d hdmem hdc] at hp
      cases hp

/-- C5 witness: `envABC` (coordinator `0xA`, mains router `0xB`,
battery router `0xC`): one online publish each for `0xB` and `0xC`,
none for `0xA`, and a timer armed exactly for `0xB`. -/
theorem c5_witness :
    publishedFor (onMQTTConnected envABC (construct 7)).2 "0xB" true = 1 ∧
    publishedFor (onMQTTConnected envABC (construct 7)).2 "0xC" true = 1 ∧
    publishedFor (onMQTTConnected envABC (construct 7)).2 "0xA" true = 0 ∧
    ("0xB" ∈ (onMQTTConnected envABC (construct 7)).1.timers.map Prod.fst ↔
      ∃ d ∈ envABC.devices, d.ieeeAddr = "0xB" ∧ isPingable d = true) :=
  have h := c5_startup envABC 7 (by decide) (by decide)
  ⟨(h.1 devB (by decide) (by decide)).1,
    (h.1 devC (by decide) (by decide)).1,
    (h.2.1 devA (by decide) rfl).1,
    h.2.2 "0xB"⟩

/-- C6: shutdown halts the queue before any publish, publishes offline
exactly once for every known non-coordinator device regardless of prior
state, publishes nothing for the coordinator, and from the stopped
state no probe job can ever run again. -/
theorem c6_shutdown (env : Env) (s : HandlerState)
    (hnd : (env.devices.map (fun d => d.ieeeAddr)).Nodup) :
    (stop env s).1.queueStopped = true ∧
    (stop env s).2 = Action.haltQueue ::
      (env.devices.filter (fun d => d.type != "Coordinator")).map
        (fun d =>
          Action.publish
            (publishAvailability env (stop env s).1 d.ieeeAddr false).2) ∧
    (∀ d ∈ env.devices, d.type ≠ "Coordinator" →
      publishedFor (stop env s).2 d.ieeeAddr false = 1 ∧
      publishedFor (stop env s).2 d.ieeeAddr true = 0) ∧
    (∀ d ∈ env.devices, d.type = "Coordinator" →
      publishedFor (stop env s).2 d.ieeeAddr false = 0 ∧
      publishedFor (stop env s).2 d.ieeeAddr true = 0) ∧
    (∀ s₂, ReachFrom env (stop env s).1 s₂ →
      s₂.queueStopped = true ∧
      ∀ err, step env s₂ (Event.probeResult err) = none) := by
  have hacts : (stop env s).2 = Action.haltQueue ::
      (env.devices.filter (fun d => d.type != "Coordinator")).map
        (fun d =>
          Action.publish
            (publishAvailability env (stop env s).1 d.ieeeAddr false).2) := rfl
  have hsubL : (env.devices.filter (fun d => d.type != "Coordinator")).Sublist
      env.devices := List.filter_sublist _
  have hndL :
      ((env.devices.filter (fun d => d.type != "Coordinator")).map
        (fun d => d.ieeeAddr)).Nodup :=
    ((hsubL.map (fun d => d.ieeeAddr)).nodup) hnd
  refine ⟨rfl, hacts, ?_, ?_, ?_⟩
  · intro d hd hne
    have hdL : d ∈ env.devices.filter (fun d => d.type != "Coordinator") :=
      List.mem_filter.mpr ⟨hd, bne_iff_ne.mpr hne⟩
    constructor
    · rw [hacts, publishedFor_halt_cons, publishedFor_map_flag, if_pos rfl]
      exact countP_addr_eq_one _ hndL hdL
    · rw [hacts, publishedFor_halt_cons, publishedFor_map_flag]
      simp
  · intro d hd hdc
    constructor
    · rw [hacts, publishedFor_halt_cons, publishedFor_map_flag, if_pos rfl,
        List.countP_eq_zero]
      intro e heL hbe
      have he := List.mem_filter.mp heL
      have heq : e = d :=
        List.inj_on_of_nodup_map hnd he.1 hd (beq_iff_eq.mp hbe)
      have hent := bne_iff_ne.mp he.2
      rw [heq] at hent
      exact hent hdc
    · rw [hacts, publishedFor_halt_cons, publishedFor_map_flag]
      simp
  · intro s₂ h₂
    have hst2 := reachFrom_stopped h₂ rfl
    exact ⟨hst2, fun err => step_probeResult_stopped hst2 err⟩

/-- C6 witness: shutting down `envABC` from a fresh handler. -/
theorem c6_witness :
    (stop envABC (construct 7)).1.queueStopped = true ∧
    publishedFor (stop envABC (construct 7)).2 "0xB" false = 1 ∧
    publishedFor (stop envABC (construct 7)).2 "0xA" false = 0 ∧
    step envABC (stop envABC (construct 7)).1 (Event.probeResult false) =
      none :=
  have h := c6_shutdown envABC (construct 7) (by decide)
  ⟨h.1, (h.2.2.1 devB (by decide) (by decide)).1,
    (h.2.2.2.1 devA (by decide) rfl).1,
    (h.2.2.2.2 (stop envABC (construct 7)).1 (ReachFrom.refl _)).2 false⟩

end DeviceAvailability
